import Mathlib

/-!
Verification of the TruckHub aggregation engine ("FoodTruckPro" repository).

Shallow embedding conventions:
* SQL `decimal` columns and JS numbers are modelled as `ℚ` (the engine wraps
  them in `Number(...)` before arithmetic); nullable columns as `Option ℚ`.
* Timestamps are epoch milliseconds, modelled as `ℤ`.
* Nullable `decimal` columns reach the client as `string | null` (drizzle
  returns Postgres numerics as strings and the routes serve the rows with
  `res.json`); a decimal serialization such as "0.00" is a non-empty string,
  hence JS-truthy whatever its numeric value, while `null` is falsy.  Such a
  field is modelled as `Option ℚ` carrying the numeric value the string
  denotes (the value `Number(...)` recovers), `none` standing for `null`.
* `Math.round x` (round half towards +∞ on reals) is `⌊x + 1/2⌋`.

Sources embedded:
* `src/server/storage.ts` — `getDashboardStats` (lines 303–357);
* `src/unnamed/part_001` — inventory page `getStockStatus` / `lowStockItems`;
* `src/unnamed/part_003` — dashboard `lowStockItems`, profile `averageRating`;
* `src/unnamed/part_004` — protein page `getUsagePercentage` / `isLow`;
* `src/client/src/pages/reviews.tsx` — `averageRating`, `ratingDistribution`;
* `src/client/src/components/recent-orders.tsx` — `formatOrderItems`.
-/

namespace TruckHub

/-- Order row (`shared/schema.ts` table `orders`): `totalAmount` is a decimal,
`status` a varchar (pending/preparing/completed/cancelled), `createdAt` a
timestamp.  Only the fields the aggregation engine reads are carried. -/
structure Order where
  totalAmount : ℚ
  status : String
  createdAt : ℤ
  deriving Repr, DecidableEq

/-- Review row (`shared/schema.ts` table `reviews`): `rating` is an integer
column (validated to 1–5 at the API boundary, not re-checked by the engine). -/
structure Review where
  rating : ℤ
  deriving Repr, DecidableEq

/-- Location row (`shared/schema.ts` table `locations`): `isActive` boolean. -/
structure Location where
  isActive : Bool
  deriving Repr, DecidableEq

/-- Inventory item row (`shared/schema.ts` table `inventory_items`) as the
client receives it: `currentStock` a decimal string, `lowStockThreshold` a
decimal string or `null`.  Both decimal strings are modelled by the rational
value they denote (what `Number(...)` yields); `none` models `null`. -/
structure InventoryItem where
  name : String
  currentStock : ℚ
  lowStockThreshold : Option ℚ
  deriving Repr, DecidableEq

/-- Protein inventory row (`shared/schema.ts` table `protein_inventory`). -/
structure ProteinInventory where
  proteinType : String
  allocatedAmount : ℚ
  currentStock : ℚ
  usedAmount : ℚ
  deriving Repr, DecidableEq

/-- JS truthiness of a nullable decimal-string field: `null` is falsy, and
every decimal serialization (a non-empty string such as "0.00", even for the
value 0) is truthy — so the test succeeds exactly when the field is
non-null. -/
def jsTruthy : Option ℚ → Bool
  | none => false
  | some _ => true

/-- JS `Math.round`: round half towards +∞, i.e. `⌊x + 1/2⌋`. -/
def jsRound (q : ℚ) : ℤ := ⌊q + 1 / 2⌋

/-- The 1-decimal rounding applied by `getDashboardStats`
(`storage.ts` line 354: `Math.round(averageRating * 10) / 10`). -/
def round1 (q : ℚ) : ℚ := (jsRound (q * 10) : ℚ) / 10

/-- Modelled from the spec: round-half-away-from-zero, the rounding mode the
spec names for the 1-decimal rounding (§4.1 / §8).  Agrees with `jsRound` on
nonnegative arguments. -/
def roundHalfAway (q : ℚ) : ℤ := if 0 ≤ q then ⌊q + 1 / 2⌋ else -⌊-q + 1 / 2⌋

/-- Modelled from the spec: 1-decimal rounding via round-half-away-from-zero,
`round1(x) = round-half-away-from-zero(x * 10) / 10` (§8). -/
def round1Away (q : ℚ) : ℚ := (roundHalfAway (q * 10) : ℚ) / 10

/-- Result shape of `getDashboardStats` (`storage.ts` lines 303–308). -/
structure DashboardStats where
  todaySales : ℚ
  ordersToday : ℕ
  averageRating : ℚ
  activeLocations : ℕ
  deriving Repr, DecidableEq

/-- Start of the current day computed from the clock (`storage.ts` lines
310–311, `today.setHours(0,0,0,0)`); day length 86400000 ms.  The value is
computed but never used by the stats, so the exact timezone model is
irrelevant downstream. -/
def dayStart (now : ℤ) : ℤ := now - now % 86400000

/-- Method `DatabaseStorage.getDashboardStats` (`storage.ts` lines 303–357), with the
record-store reads replaced by the per-truck record lists they return and the
wall clock passed explicitly as `now`.  The `todayOrders` query filters only
by `status == 'completed'` (lines 316–324); `today`/`tomorrow` are computed
(lines 309–313) but never used. -/
def getDashboardStats (now : ℤ) (orders : List Order) (reviewList : List Review)
    (locations : List Location) : DashboardStats :=
  let today := dayStart now
  let tomorrow := today + 86400000
  let todayOrders := orders.filter (fun o => o.status == "completed")
  let todaySales := todayOrders.foldl (fun sum o => sum + o.totalAmount) 0
  let ordersToday := todayOrders.length
  let averageRating :=
    if reviewList.length > 0 then
      reviewList.foldl (fun sum r => sum + (r.rating : ℚ)) 0 / (reviewList.length : ℚ)
    else 0
  let activeLocationsList := locations.filter (fun l => l.isActive)
  { todaySales := todaySales
    ordersToday := ordersToday
    averageRating := round1 averageRating
    activeLocations := activeLocationsList.length }

/-- Folding `+ f a` over a list starting from `init` is `init` plus the sum of
the mapped list. -/
theorem foldl_add_map {α : Type} (f : α → ℚ) :
    ∀ (l : List α) (init : ℚ), l.foldl (fun s a => s + f a) init = init + (l.map f).sum
  | [], init => by simp
  | a :: l, init => by
    simp [List.foldl_cons, foldl_add_map f l, add_assoc]

/-- C1: `getDashboardStats` returns `todaySales` = sum of `totalAmount` over
exactly the orders with `status == "completed"`, `ordersToday` = their count
(no calendar-day filter — the result is independent of every `createdAt`),
and `activeLocations` = the count of locations with `isActive == true`. -/
theorem dashboard_sales_orders_locations (now : ℤ) (orders : List Order)
    (reviewList : List Review) (locations : List Location) :
    (getDashboardStats now orders reviewList locations).todaySales
        = ((orders.filter (fun o => o.status == "completed")).map Order.totalAmount).sum
      ∧ (getDashboardStats now orders reviewList locations).ordersToday
        = (orders.filter (fun o => o.status == "completed")).length
      ∧ (getDashboardStats now orders reviewList locations).activeLocations
        = (locations.filter (fun l => l.isActive)).length := by
  refine ⟨?_, rfl, rfl⟩
  show (orders.filter (fun o => o.status == "completed")).foldl
      (fun sum o => sum + o.totalAmount) 0 = _
  rw [foldl_add_map Order.totalAmount, zero_add]

/-- C7: `getDashboardStats` is a pure, deterministic, total function of the
record lists: the result is independent of the wall clock (the computed
today/tomorrow range is never used), so any two invocations on equal inputs
agree; the embedding is a total function, so there is no failure path and no
input record is mutated. -/
theorem dashboard_pure (now₁ now₂ : ℤ) (orders : List Order) (reviewList : List Review)
    (locations : List Location) :
    getDashboardStats now₁ orders reviewList locations
      = getDashboardStats now₂ orders reviewList locations := rfl

/-- The function `Math.round` is the identity on integers. -/
theorem jsRound_intCast (n : ℤ) : jsRound (n : ℚ) = n := by
  unfold jsRound
  rw [Int.floor_int_add]
  norm_num

/-- Round-half-away-from-zero is the identity on integers. -/
theorem roundHalfAway_intCast (n : ℤ) : roundHalfAway (n : ℚ) = n := by
  unfold roundHalfAway
  rcases le_or_lt 0 (n : ℚ) with h | h
  · rw [if_pos h, Int.floor_int_add]
    norm_num
  · rw [if_neg (not_le.mpr h)]
    have : (-n : ℚ) = ((-n : ℤ) : ℚ) := by push_cast; ring
    rw [this, Int.floor_int_add]
    norm_num

/-- C8: the 1-decimal rounding is idempotent, both as implemented
(`Math.round(x*10)/10`, round half towards +∞) and as the spec words it
(round-half-away-from-zero on `x*10`, divided back by 10). -/
theorem round1_idem (x : ℚ) :
    round1 (round1 x) = round1 x ∧ round1Away (round1Away x) = round1Away x := by
  constructor
  · unfold round1
    rw [div_mul_cancel₀ _ (by norm_num : (10 : ℚ) ≠ 0), jsRound_intCast]
  · unfold round1Away
    rw [div_mul_cancel₀ _ (by norm_num : (10 : ℚ) ≠ 0), roundHalfAway_intCast]

/-- On nonnegative arguments the implemented rounding (half towards +∞)
agrees with the spec's round-half-away-from-zero. -/
theorem round1_eq_round1Away_of_nonneg (q : ℚ) (h : 0 ≤ q) : round1 q = round1Away q := by
  unfold round1 round1Away roundHalfAway jsRound
  rw [if_pos (by positivity : (0 : ℚ) ≤ q * 10)]

/-- C2: `getDashboardStats` returns `averageRating = 0` on an empty review
list, and on a non-empty list of 1–5 ratings it returns the arithmetic mean
of the ratings rounded to one decimal by round-half-away-from-zero on
`value * 10` divided back by 10. -/
theorem dashboard_averageRating (now : ℤ) (orders : List Order) (reviewList : List Review)
    (locations : List Location) (hval : ∀ r ∈ reviewList, 1 ≤ r.rating ∧ r.rating ≤ 5) :
    (getDashboardStats now orders reviewList locations).averageRating
      = if reviewList.length = 0 then 0
        else round1Away ((reviewList.map (fun r => (r.rating : ℚ))).sum
              / (reviewList.length : ℚ)) := by
  show round1 (if reviewList.length > 0 then
        reviewList.foldl (fun sum r => sum + (r.rating : ℚ)) 0 / (reviewList.length : ℚ)
      else 0) = _
  rcases Nat.eq_zero_or_pos reviewList.length with h0 | hpos
  · have hng : ¬ reviewList.length > 0 := by omega
    rw [if_neg hng, if_pos h0]
    unfold round1 jsRound
    norm_num
  · have hne : ¬ reviewList.length = 0 := by omega
    rw [if_pos hpos, if_neg hne, foldl_add_map, zero_add]
    apply round1_eq_round1Away_of_nonneg
    apply div_nonneg _ (by positivity)
    apply List.sum_nonneg
    intro x hx
    obtain ⟨r, hr, rfl⟩ := List.mem_map.mp hx
    have h1 := (hval r hr).1
    exact Int.cast_nonneg.mpr (by omega)

/-- Witness for C2 at the spec's own example: reviews with ratings
`[5, 4, 5]` yield `averageRating = 4.7`. -/
theorem dashboard_averageRating_witness :
    (getDashboardStats 0 [] [⟨5⟩, ⟨4⟩, ⟨5⟩] []).averageRating = 47 / 10 := by
  have h := dashboard_averageRating 0 [] [⟨5⟩, ⟨4⟩, ⟨5⟩] [] (by decide)
  rw [h]
  norm_num [round1Away, roundHalfAway]

/-- The `averageRating` value as computed by the Reviews page
(`client/src/pages/reviews.tsx` lines 81–83). -/
def averageRating_reviewsPage (reviews : List Review) : ℚ :=
  if reviews.length > 0 then
    reviews.foldl (fun sum r => sum + (r.rating : ℚ)) 0 / (reviews.length : ℚ)
  else 0

/-- The `averageRating` value as computed by the Profile page
(`src/unnamed/part_003` lines 116–118). -/
def averageRating_profilePage (reviews : List Review) : ℚ :=
  if reviews.length > 0 then
    reviews.foldl (fun sum r => sum + (r.rating : ℚ)) 0 / (reviews.length : ℚ)
  else 0

/-- C10: the three independent average-rating computations agree: the Reviews
page and Profile page compute equal unrounded means, both return 0 on an
empty list, and the server dashboard's `averageRating` is `round1` of that
same mean. -/
theorem averageRating_agreement (now : ℤ) (orders : List Order) (reviews : List Review)
    (locations : List Location) :
    averageRating_reviewsPage reviews = averageRating_profilePage reviews
      ∧ averageRating_reviewsPage [] = 0
      ∧ averageRating_profilePage [] = 0
      ∧ (getDashboardStats now orders reviews locations).averageRating
        = round1 (averageRating_reviewsPage reviews) :=
  ⟨rfl, rfl, rfl, rfl⟩

/-- Function `getStockStatus` from the Inventory page (`src/unnamed/part_001` lines
182–187): `item.lowStockThreshold && Number(item.currentStock) <=
Number(item.lowStockThreshold)` — a truthiness test on the threshold
followed by the numeric comparison. -/
def getStockStatus (item : InventoryItem) : String × String :=
  if jsTruthy item.lowStockThreshold
      && decide (item.currentStock ≤ item.lowStockThreshold.getD 0) then
    ("low", "destructive")
  else
    ("normal", "default")

/-- Value `lowStockItems` from the Inventory page (`src/unnamed/part_001` lines
189–191): filter with the same truthiness-guarded comparison. -/
def lowStockItems (inventory : List InventoryItem) : List InventoryItem :=
  inventory.filter (fun item =>
    jsTruthy item.lowStockThreshold
      && decide (item.currentStock ≤ item.lowStockThreshold.getD 0))

/-- Value `lowStockItems` from the Dashboard page (`src/unnamed/part_003` lines
405–407): textually the same filter, embedded separately because it is a
second occurrence in the source. -/
def lowStockItems_dashboard (inventoryArray : List InventoryItem) : List InventoryItem :=
  inventoryArray.filter (fun item =>
    jsTruthy item.lowStockThreshold
      && decide (item.currentStock ≤ item.lowStockThreshold.getD 0))

/-- The low-stock filter as claim C3 words it: an item is flagged iff
`lowStockThreshold` is present (non-null) and `currentStock ≤
lowStockThreshold`.  Kept separate from the source embedding so the two can
be compared. -/
def lowStockItems_claimed (inventory : List InventoryItem) : List InventoryItem :=
  inventory.filter (fun item =>
    item.lowStockThreshold.isSome
      && decide (item.currentStock ≤ item.lowStockThreshold.getD 0))

/-- C3: an item is flagged iff its `lowStockThreshold` is present (non-null)
and `currentStock ≤ lowStockThreshold` — the truthiness guard on the
string-valued threshold succeeds exactly when the threshold is non-null, so
the source filter coincides with the claim's predicate; an item with a null
threshold is never flagged, the output is a subsequence of the input in
input order (a filter, not a sort), and the Dashboard-page filter agrees
with the Inventory-page one. -/
theorem lowStock_filter_characterization (inventory : List InventoryItem) :
    (∀ item : InventoryItem,
        item ∈ lowStockItems inventory
          ↔ item ∈ inventory
              ∧ ∃ t, item.lowStockThreshold = some t ∧ item.currentStock ≤ t)
      ∧ lowStockItems inventory = lowStockItems_claimed inventory
      ∧ List.Sublist (lowStockItems inventory) inventory
      ∧ lowStockItems_dashboard inventory = lowStockItems inventory := by
  refine ⟨?_, ?_, List.filter_sublist _, rfl⟩
  · intro item
    rw [lowStockItems, List.mem_filter]
    cases h : item.lowStockThreshold with
    | none => simp [jsTruthy, h]
    | some t => simp [jsTruthy, h]
  · apply List.filter_congr
    intro item _
    cases h : item.lowStockThreshold <;> simp [jsTruthy, h]

/-- Counterexample to C9 as stated: an item with `lowStockThreshold = 0`
(the string "0.00" at runtime, which is truthy) and `currentStock = 0` IS
flagged by the Inventory-page filter and the Dashboard-page filter, and
`getStockStatus` reports it "low" — the claim says it is never flagged. -/
theorem threshold_zero_flagged_counterexample :
    lowStockItems [⟨"flour", 0, some 0⟩] = [⟨"flour", 0, some 0⟩]
      ∧ lowStockItems_dashboard [⟨"flour", 0, some 0⟩] = [⟨"flour", 0, some 0⟩]
      ∧ getStockStatus ⟨"flour", 0, some 0⟩ = ("low", "destructive") := by
  refine ⟨rfl, rfl, rfl⟩

/-- C9 amended: an inventory item whose `lowStockThreshold` equals 0 IS
flagged as low stock by both the Inventory-page and Dashboard-page filters,
and reported "low" by `getStockStatus`, exactly when its `currentStock ≤ 0`
(so in particular at stock 0 or negative) — because the threshold reaches
the client as the non-empty decimal string "0.00", which is truthy, making
the truthiness test behave as a non-null test. -/
theorem threshold_zero_flagged_iff (item : InventoryItem) (inventory : List InventoryItem)
    (h : item.lowStockThreshold = some 0) :
    (item ∈ lowStockItems inventory ↔ item ∈ inventory ∧ item.currentStock ≤ 0)
      ∧ (item ∈ lowStockItems_dashboard inventory
          ↔ item ∈ inventory ∧ item.currentStock ≤ 0)
      ∧ (getStockStatus item = ("low", "destructive") ↔ item.currentStock ≤ 0) := by
  have hpred : (jsTruthy item.lowStockThreshold
      && decide (item.currentStock ≤ item.lowStockThreshold.getD 0))
        = decide (item.currentStock ≤ 0) := by
    simp [jsTruthy, h]
  refine ⟨?_, ?_, ?_⟩
  · rw [lowStockItems, List.mem_filter, hpred]
    simp
  · rw [lowStockItems_dashboard, List.mem_filter, hpred]
    simp
  · rw [getStockStatus, hpred]
    rcases le_or_lt item.currentStock 0 with hle | hlt
    · simp [hle]
    · have hn : ¬ item.currentStock ≤ 0 := not_le.mpr hlt
      simp [hn]

/-- Witness for the amended C9: a concrete item with threshold 0 and
negative stock is flagged and reads "low". -/
theorem threshold_zero_flagged_iff_witness :
    (⟨"flour", -1, some 0⟩ : InventoryItem) ∈ lowStockItems [⟨"flour", -1, some 0⟩]
      ∧ getStockStatus ⟨"flour", -1, some 0⟩ = ("low", "destructive") := by
  have h := threshold_zero_flagged_iff ⟨"flour", -1, some 0⟩ [⟨"flour", -1, some 0⟩] rfl
  exact ⟨h.1.mpr ⟨by simp, by norm_num⟩, h.2.2.mpr (by norm_num)⟩

/-- Function `getUsagePercentage` from the Protein page (`src/unnamed/part_004` lines
117–119): `allocated > 0 ? (used / allocated) * 100 : 0`. -/
def getUsagePercentage (used allocated : ℚ) : ℚ :=
  if allocated > 0 then used / allocated * 100 else 0

/-- The per-card `isLow` computation from the Protein page
(`src/unnamed/part_004` line 316): `remaining < allocatedAmount * 0.2`
where `remaining = Number(protein.currentStock)`. -/
def proteinIsLow (protein : ProteinInventory) : Bool :=
  decide (protein.currentStock < protein.allocatedAmount * (2 / 10))

/-- C4: `getUsagePercentage` returns `(used / allocated) * 100` when
`allocated > 0` and 0 when `allocated = 0` (no division error); `isLow`
holds exactly when `currentStock < allocatedAmount * 0.2` (fixed 20%
threshold) and does not depend on `usedAmount` or on the usage
percentage. -/
theorem proteinUsage_spec (used allocated : ℚ) (p q : ProteinInventory) :
    (allocated > 0 → getUsagePercentage used allocated = used / allocated * 100)
      ∧ (allocated = 0 → getUsagePercentage used allocated = 0)
      ∧ (proteinIsLow p = true ↔ p.currentStock < p.allocatedAmount * (2 / 10))
      ∧ (p.currentStock = q.currentStock → p.allocatedAmount = q.allocatedAmount →
          proteinIsLow p = proteinIsLow q) := by
  refine ⟨?_, ?_, ?_, ?_⟩
  · intro h
    rw [getUsagePercentage, if_pos h]
  · intro h
    rw [getUsagePercentage, if_neg (by rw [h]; exact lt_irrefl 0)]
  · simp [proteinIsLow]
  · intro h1 h2
    rw [proteinIsLow, proteinIsLow, h1, h2]

/-- Witness for C4: zero allocation yields usage 0, and the spec's example
protein (`allocatedAmount = 50`, `currentStock = 8`) is low (8 < 10). -/
theorem proteinUsage_spec_witness :
    getUsagePercentage 5 0 = 0 ∧ proteinIsLow ⟨"beef", 50, 8, 0⟩ = true := by
  have h := proteinUsage_spec 5 0 ⟨"beef", 50, 8, 0⟩ ⟨"beef", 50, 8, 0⟩
  exact ⟨h.2.1 rfl, h.2.2.1.mpr (by norm_num)⟩

/-- One order line `{name, quantity}` as the spec's `OrderLine` record shape
(`recent-orders.tsx` renders `item.quantity` and `item.name`). -/
structure OrderLine where
  name : String
  quantity : ℤ
  deriving Repr, DecidableEq

/-- A parsed value as seen by `formatOrderItems` after the string branch:
either an array of order lines or any non-array value (all non-array values
take the same branch of the single `Array.isArray` test, so they are
collapsed into one constructor). -/
inductive ParsedItems where
  | arr (items : List OrderLine)
  | nonArray
  deriving Repr, DecidableEq

/-- The union input type of `formatOrderItems`
(`Items = EncodedJSON(string) | Parsed(sequence<OrderLine>)`). -/
inductive ItemsValue where
  | encoded (s : String)
  | alreadyParsed (v : ParsedItems)
  deriving Repr, DecidableEq

/-- The template literal of one entry: `{quantity}x {name}`. -/
def renderOrderLine (item : OrderLine) : String :=
  toString item.quantity ++ "x " ++ item.name

/-- The `Array.isArray` dispatch shared by both input shapes
(`recent-orders.tsx` lines 41–48): arrays render joined by `", "`, any
other value yields the "No items" sentinel. -/
def formatParsedItems : ParsedItems → String
  | .arr items => String.intercalate ", " (items.map renderOrderLine)
  | .nonArray => "No items"

/-- Function `formatOrderItems` (`recent-orders.tsx` lines 33–49).  `JSON.parse` is
the JS runtime's parser, external to this code, so it is abstracted as the
`parseJson` argument: `none` models a parse exception (the `catch` branch
returns the "Invalid order data" sentinel), `some v` the parsed value.  The
return type `String` (not `Option`/`Except`) embeds the guarantee that the
function always returns a string and never raises. -/
def formatOrderItems (parseJson : String → Option ParsedItems) : ItemsValue → String
  | .encoded s =>
    match parseJson s with
    | none => "Invalid order data"
    | some v => formatParsedItems v
  | .alreadyParsed v => formatParsedItems v

/-- C5: for every parse behavior and every input, `formatOrderItems` returns
a string (it is total — no error path): the "Invalid order data" sentinel on
a string whose JSON decode fails, the "No items" sentinel when the given or
decoded value is not an array, and otherwise the entries rendered as
`{quantity}x {name}` joined by `", "` in input order. -/
theorem formatOrderItems_total (parseJson : String → Option ParsedItems)
    (s : String) (items : List OrderLine) :
    (parseJson s = none → formatOrderItems parseJson (.encoded s) = "Invalid order data")
      ∧ (parseJson s = some (.arr items) →
          formatOrderItems parseJson (.encoded s)
            = String.intercalate ", "
                (items.map (fun item => toString item.quantity ++ "x " ++ item.name)))
      ∧ (parseJson s = some .nonArray →
          formatOrderItems parseJson (.encoded s) = "No items")
      ∧ formatOrderItems parseJson (.alreadyParsed (.arr items))
          = String.intercalate ", "
              (items.map (fun item => toString item.quantity ++ "x " ++ item.name))
      ∧ formatOrderItems parseJson (.alreadyParsed .nonArray) = "No items" := by
  refine ⟨?_, ?_, ?_, rfl, rfl⟩
  · intro h
    simp [formatOrderItems, h]
  · intro h
    simp only [formatOrderItems, h]
    rfl
  · intro h
    simp [formatOrderItems, h, formatParsedItems]

/-- Witness for C5 at the spec's example: a non-JSON string yields the
"Invalid order data" sentinel, not an exception. -/
theorem formatOrderItems_total_witness :
    formatOrderItems (fun _ => none) (.encoded "not json") = "Invalid order data" :=
  (formatOrderItems_total (fun _ => none) "not json" []).1 rfl

/-- One entry of the rating distribution (`reviews.tsx` lines 85–91). -/
structure RatingBucket where
  rating : ℤ
  count : ℕ
  percentage : ℚ
  deriving Repr, DecidableEq

/-- Value `ratingDistribution` from the Reviews page (`reviews.tsx` lines 85–91):
map over the fixed list `[5, 4, 3, 2, 1]`, counting matching reviews and
computing `count / totalReviews * 100` (0 when there are no reviews). -/
def ratingDistribution (reviews : List Review) : List RatingBucket :=
  ([5, 4, 3, 2, 1] : List ℤ).map (fun rating =>
    { rating := rating
      count := (reviews.filter (fun review => review.rating == rating)).length
      percentage :=
        if reviews.length > 0 then
          ((reviews.filter (fun review => review.rating == rating)).length : ℚ)
            / (reviews.length : ℚ) * 100
        else 0 })

/-- When every rating lies in 1..5, the five per-rating counts partition the
review list. -/
theorem countFive (reviews : List Review)
    (hval : ∀ r ∈ reviews, 1 ≤ r.rating ∧ r.rating ≤ 5) :
    (reviews.filter (fun r => r.rating == 5)).length
      + (reviews.filter (fun r => r.rating == 4)).length
      + (reviews.filter (fun r => r.rating == 3)).length
      + (reviews.filter (fun r => r.rating == 2)).length
      + (reviews.filter (fun r => r.rating == 1)).length = reviews.length := by
  induction reviews with
  | nil => simp
  | cons x xs ih =>
    have hx := hval x (List.mem_cons_self x xs)
    have ihh := ih (fun r hr => hval r (List.mem_cons_of_mem x hr))
    obtain ⟨hlo, hhi⟩ := hx
    have hcases : x.rating = 1 ∨ x.rating = 2 ∨ x.rating = 3 ∨ x.rating = 4 ∨ x.rating = 5 := by
      omega
    simp only [List.filter_cons, List.length_cons]
    rcases hcases with h | h | h | h | h <;> simp only [h] <;> norm_num <;> omega

/-- C6: for review lists whose ratings lie in 1..5, `ratingDistribution`
covers the buckets 5,4,3,2,1 exactly once, each bucket carries the count of
reviews with that rating and `count / totalReviews * 100` (0 when there are
no reviews); the five counts sum to the number of reviews, the five
percentages sum to exactly 100 when there is at least one review, and all
counts are 0 when there are none. -/
theorem ratingDistribution_spec (reviews : List Review)
    (hval : ∀ r ∈ reviews, 1 ≤ r.rating ∧ r.rating ≤ 5) :
    (ratingDistribution reviews).map RatingBucket.rating = [5, 4, 3, 2, 1]
      ∧ (∀ b ∈ ratingDistribution reviews,
          b.count = (reviews.filter (fun review => review.rating == b.rating)).length
            ∧ b.percentage =
                (if reviews.length > 0 then
                  (b.count : ℚ) / (reviews.length : ℚ) * 100
                else 0))
      ∧ ((ratingDistribution reviews).map RatingBucket.count).sum = reviews.length
      ∧ (reviews.length > 0 →
          ((ratingDistribution reviews).map RatingBucket.percentage).sum = 100)
      ∧ (reviews.length = 0 → ∀ b ∈ ratingDistribution reviews, b.count = 0) := by
  have hsum := countFive reviews hval
  refine ⟨rfl, ?_, ?_, ?_, ?_⟩
  · intro b hb
    simp only [ratingDistribution, List.map_cons, List.map_nil, List.mem_cons,
      List.not_mem_nil, or_false] at hb
    rcases hb with rfl | rfl | rfl | rfl | rfl <;> exact ⟨rfl, rfl⟩
  · simp only [ratingDistribution, List.map_cons, List.map_nil, List.sum_cons,
      List.sum_nil]
    omega
  · intro hpos
    have hL : ((reviews.length : ℚ)) ≠ 0 := by
      exact_mod_cast Nat.pos_iff_ne_zero.mp hpos
    have hcast : ((reviews.filter (fun r => r.rating == 5)).length : ℚ)
        + ((reviews.filter (fun r => r.rating == 4)).length : ℚ)
        + ((reviews.filter (fun r => r.rating == 3)).length : ℚ)
        + ((reviews.filter (fun r => r.rating == 2)).length : ℚ)
        + ((reviews.filter (fun r => r.rating == 1)).length : ℚ)
        = (reviews.length : ℚ) := by exact_mod_cast hsum
    simp only [ratingDistribution, List.map_cons, List.map_nil, List.sum_cons,
      List.sum_nil, if_pos hpos]
    field_simp
    linear_combination (100 : ℚ) * hcast
  · intro h0 b hb
    rw [List.length_eq_zero] at h0
    subst h0
    simp only [ratingDistribution, List.map_cons, List.map_nil, List.mem_cons,
      List.not_mem_nil, or_false] at hb
    rcases hb with rfl | rfl | rfl | rfl | rfl <;> rfl

/-- Witness for C6 at reviews `[5, 4, 5]`: the counts sum to 3 and the
percentages sum to exactly 100. -/
theorem ratingDistribution_spec_witness :
    ((ratingDistribution [⟨5⟩, ⟨4⟩, ⟨5⟩]).map RatingBucket.count).sum = 3
      ∧ ((ratingDistribution [⟨5⟩, ⟨4⟩, ⟨5⟩]).map RatingBucket.percentage).sum = 100 := by
  have h := ratingDistribution_spec [⟨5⟩, ⟨4⟩, ⟨5⟩] (by decide)
  exact ⟨h.2.2.1, h.2.2.2.1 (by decide)⟩

end TruckHub
